import Mathlib

/-!
Verification development for `trace_parser.py`, a Home Assistant trace parser.

The program has two core components:
* the Alias Mapper (`load_automation` / `map_steps`, lines 38-87): walks the
  nested YAML automation definition and builds a mapping from structural
  paths to display labels;
* the Trace Normalizer (`process_trace`, lines 89-170): flattens the trace's
  event table, sorts events by timestamp, resolves aliases (with
  plural/singular fallbacks), inserts loop-iteration markers, and builds
  display records; `format_output` (lines 172-193) renders them.

Python values (the YAML document, the parsed JSON trace, and all values
flowing through the program) are embedded as the mutual inductive family
`PyVal` / `PyArr` / `PyObj` below (a mutual family rather than a nested one,
so that all functions are plain structural recursion and evaluate in the
kernel).  Machine-level details abstracted by this shallow embedding, none
of which the claims depend on:
* ISO-8601 timestamp strings are stored pre-parsed: where the JSON trace
  file holds an ISO date-time string and the code calls
  `datetime.fromisoformat(s).timestamp()`, the embedding stores the
  resulting POSIX timestamp directly as a rational number (`PyVal.num`),
  preserving full sub-second precision and the ordering of instants;
  `fromIso` models the parse, failing on any non-number.
* Timezone conversion and `strftime` rendering are not modelled; display
  records keep the timestamp as the rational instant.
* Python `str()` / `json.dumps` rendering of non-string values is modelled
  best-effort by `pyStr` (exact for strings, the only case the claims
  exercise).
* Python dicts are key/value sequences in insertion order with string keys;
  `mapSet` mirrors dict assignment (update in place, else append), `dictGet`
  and `mapGet` mirror `get`.  Exceptions are modelled with `Except String`.
-/

mutual
/-- A Python value as produced by `yaml.safe_load` / `json.load`: the common
data model for the definition document, the trace document and every value
the program manipulates. -/
inductive PyVal where
  | null : PyVal
  | boolean : Bool → PyVal
  | num : ℚ → PyVal
  | str : String → PyVal
  | arr : PyArr → PyVal
  | obj : PyObj → PyVal
deriving Repr
/-- A Python list of values, in order. -/
inductive PyArr where
  | nil : PyArr
  | cons : PyVal → PyArr → PyArr
deriving Repr
/-- A Python dict with string keys, entries in insertion order. -/
inductive PyObj where
  | nil : PyObj
  | cons : String → PyVal → PyObj → PyObj
deriving Repr
end

/-- Build a `PyArr` from a Lean list (notation helper for concrete inputs). -/
def PyArr.ofList : List PyVal → PyArr
  | [] => .nil
  | v :: tl => .cons v (PyArr.ofList tl)

/-- Build a `PyObj` from a Lean association list (notation helper). -/
def PyObj.ofList : List (String × PyVal) → PyObj
  | [] => .nil
  | (k, v) :: tl => .cons k v (PyObj.ofList tl)

/-- The elements of a Python list, as a Lean list. -/
def PyArr.toList : PyArr → List PyVal
  | .nil => []
  | .cons v tl => v :: PyArr.toList tl

/-- The entries of a Python dict, as a Lean association list. -/
def PyObj.toList : PyObj → List (String × PyVal)
  | .nil => []
  | .cons k v tl => (k, v) :: PyObj.toList tl

/-- A Python list value from a Lean list (concrete-input helper). -/
def parr (l : List PyVal) : PyVal := .arr (PyArr.ofList l)

/-- A Python dict value from a Lean association list (concrete-input
helper). -/
def pobj (l : List (String × PyVal)) : PyVal := .obj (PyObj.ofList l)

/-- Python truthiness (`if x:`) for a value. -/
def pyTruthy : PyVal → Bool
  | .null => false
  | .boolean b => b
  | .num q => q != 0
  | .str s => s != ""
  | .arr .nil => false
  | .arr _ => true
  | .obj .nil => false
  | .obj _ => true

/-- Truthiness of an optional value: Python `None` is falsy. -/
def optTruthy : Option PyVal → Bool
  | none => false
  | some v => pyTruthy v

/-- Python `d.get(k)` on a parsed dict. -/
def dictGet : PyObj → String → Option PyVal
  | .nil, _ => none
  | .cons k' v tl, k => if k' = k then some v else dictGet tl k

/-- Python `k in d` on a parsed dict. -/
def dictHasKey : PyObj → String → Bool
  | .nil, _ => false
  | .cons k' _ tl, k => k' == k || dictHasKey tl k

/-- The alias mapping the program builds: a Python dict from path strings to
label values, as an association list in insertion order. -/
abbrev Mapping := List (String × PyVal)

/-- Python `d.get(k)` on the alias mapping. -/
def mapGet : Mapping → String → Option PyVal
  | [], _ => none
  | (k', v) :: rest, k => if k' = k then some v else mapGet rest k

/-- Python `d[k] = v` on the alias mapping: update the existing entry in
place, else append (insertion order preserved, as for Python dicts). -/
def mapSet : Mapping → String → PyVal → Mapping
  | [], k, v => [(k, v)]
  | (k', v') :: rest, k, v =>
    if k' = k then (k, v) :: rest else (k', v') :: mapSet rest k v

/-- Python character-count slice `s[n:]` (Python strings index by
character). -/
def dropChars (s : String) (n : Nat) : String := ⟨s.data.drop n⟩

/-- Python `s.lstrip('/')`. -/
def lstripSlash (s : String) : String := ⟨s.data.dropWhile (· == '/')⟩

/-- Python `str(x)`, best effort: exact for strings, booleans and `None`;
numbers render as rationals, containers as placeholders.  The claims only
exercise the string case (aliases in the documents at issue are strings). -/
def pyStr : PyVal → String
  | .str s => s
  | .boolean true => "True"
  | .boolean false => "False"
  | .null => "None"
  | .num q => toString q
  | .arr _ => "[...]"
  | .obj _ => "\x7b...\x7d"

mutual
/-- Python `==` between two values (structural; dict comparison is
order-sensitive here, a difference from Python that no claim reaches — it is
only used to model `!=` in the main-alias check, and only on the
missing-name path where the comparison short-circuits). -/
def pyEq : PyVal → PyVal → Bool
  | .null, .null => true
  | .boolean x, .boolean y => x == y
  | .num x, .num y => x == y
  | .str x, .str y => x == y
  | .arr x, .arr y => pyEqArr x y
  | .obj x, .obj y => pyEqObj x y
  | _, _ => false
/-- Elementwise `==` on Python lists. -/
def pyEqArr : PyArr → PyArr → Bool
  | .nil, .nil => true
  | .cons x xs, .cons y ys => pyEq x y && pyEqArr xs ys
  | _, _ => false
/-- Entrywise `==` on Python dicts (in order). -/
def pyEqObj : PyObj → PyObj → Bool
  | .nil, .nil => true
  | .cons k1 v1 r1, .cons k2 v2 r2 => k1 == k2 && pyEq v1 v2 && pyEqObj r1 r2
  | _, _ => false
end

/-- Is the value a YAML container (list or dict)?  Mirrors
`isinstance(value, (list, dict))` at line 85. -/
def isContainer : PyVal → Bool
  | .arr _ => true
  | .obj _ => true
  | _ => false

/-- The inherited-alias label of lines 53-54 and 70-71:
`f"{nearest_alias}//{path_sublevel}"` where `path_sublevel` is the node's
path with the nearest-alias path prefix removed and stripped of a leading
`/` (or the whole path if the recorded alias path is empty). -/
def aliasLabel (ctx : PyVal × String) (path : String) : String :=
  let sub := if ctx.2 != "" then lstripSlash (dropChars path ctx.2.length) else path
  pyStr ctx.1 ++ "//" ++ sub

/-- Record the entry for a node without its own truthy alias (lines 50-56
and 68-73, after the `base` guard): the inherited label if a nearest-alias
context exists, else the path itself. -/
def recordDerived (m : Mapping) (path : String) (na : Option (PyVal × String)) :
    Mapping :=
  match na with
  | some ctx => mapSet m path (.str (aliasLabel ctx path))
  | none => mapSet m path (.str path)

mutual
/-- `map_steps` (lines 41-78).  `m` is the mapping being built (Python
mutates a shared dict; here it is threaded), `na` the nearest-alias context
`(nearest_alias, nearest_alias_path)`, present exactly when Python's
`nearest_alias` is truthy (it is only ever set from a truthy alias value).
Non-container leaves fall through to the final `return` (line 78). -/
def mapSteps : String → PyVal → Mapping → Option (PyVal × String) → Mapping
  | base, .arr l, m, na => mapElems base 0 l m na
  | base, .obj kvs, m, na =>
    let st :=
      match dictGet kvs "alias" with
      | some lv =>
        if pyTruthy lv && base != "" then (mapSet m base lv, some (lv, base))
        else (if base != "" then recordDerived m base na else m, na)
      | none => (if base != "" then recordDerived m base na else m, na)
    mapFields base kvs st.1 st.2
  | _, _, m, _ => m
/-- The list branch of `map_steps` (lines 42-61): enumerate elements from
`idx`, record each element's entry, and descend into dict elements'
key/value pairs with the (possibly updated) nearest-alias context.  Sibling
elements keep the caller's context. -/
def mapElems : String → Nat → PyArr → Mapping → Option (PyVal × String) → Mapping
  | _, _, .nil, m, _ => m
  | base, idx, .cons step tl, m, na =>
    let path :=
      if base != "" then base ++ "/" ++ toString idx
      else "sequence/" ++ toString idx
    let st :=
      match step with
      | .obj kvs =>
        match dictGet kvs "alias" with
        | some lv =>
          if pyTruthy lv then (mapSet m path lv, some (lv, path))
          else (recordDerived m path na, na)
        | none => (recordDerived m path na, na)
      | _ => (recordDerived m path na, na)
    let m2 :=
      match step with
      | .obj kvs => mapFields path kvs st.1 st.2
      | _ => st.1
    mapElems base (idx+1) tl m2 na
/-- The key/value descent shared by both branches of `map_steps` (lines
60-61 and 76-77): recurse into each value with base `path/key` (or the bare
key when the base is empty). -/
def mapFields : String → PyObj → Mapping → Option (PyVal × String) → Mapping
  | _, .nil, m, _ => m
  | base, .cons k v tl, m, na =>
    let m1 := mapSteps (if base != "" then base ++ "/" ++ k else k) v m na
    mapFields base tl m1 na
end

/-- The top-level loop of `load_automation` (lines 84-86): walk each
top-level key whose value is a container, or whose key is `sequence`. -/
def loadLoop : List (String × PyVal) → Mapping → Mapping
  | [], m => m
  | (k, v) :: rest, m =>
    loadLoop rest (if k == "sequence" || isContainer v then mapSteps k v m none else m)

/-- `load_automation` (lines 38-87) applied to the already-parsed document:
builds the alias mapping.  `automation.items()` raises `AttributeError`
unless the top-level value is a dict, hence the `Except`. -/
def loadAutomation (doc : PyVal) : Except String Mapping :=
  match doc with
  | .obj kvs => .ok (loadLoop kvs.toList [])
  | _ => .error "AttributeError: object has no attribute items"

/-- Replace every non-overlapping occurrence of `pat` by `rep`, scanning
left to right, staged on fuel (initialised to the string length, which the
scan never exhausts since a nonempty match consumes at least one
character). -/
def replaceAllAux (pat rep : List Char) : Nat → List Char → List Char
  | _, [] => []
  | 0, s => s
  | fuel+1, c :: cs =>
    if pat.isPrefixOf (c :: cs) && !pat.isEmpty then
      rep ++ replaceAllAux pat rep fuel (List.drop pat.length (c :: cs))
    else c :: replaceAllAux pat rep fuel cs

/-- Python `s.replace(old, new)`: replaces ALL occurrences. -/
def pyReplace (s pat rep : String) : String :=
  ⟨replaceAllAux pat.data rep.data s.data.length s.data⟩

/-- Replace only the FIRST occurrence of `pat` by `rep`.  This is not what
the program does — it follows one reading of the specification's words
("replace of the first matching literal substring") and exists to be
compared against `pyReplace`. -/
def replaceFirstAux (pat rep : List Char) : List Char → List Char
  | [] => []
  | c :: cs =>
    if pat.isPrefixOf (c :: cs) && !pat.isEmpty then
      rep ++ List.drop pat.length (c :: cs)
    else c :: replaceFirstAux pat rep cs

/-- First-occurrence-only string replacement (specification-side variant of
`pyReplace`, see `replaceFirstAux`). -/
def replaceFirstStr (s pat rep : String) : String :=
  ⟨replaceFirstAux pat.data rep.data s.data⟩

/-- Substring test on character lists. -/
def containsAux (pat : List Char) : List Char → Bool
  | [] => pat.isEmpty
  | c :: cs => pat.isPrefixOf (c :: cs) || containsAux pat cs

/-- Python `pat in s` on strings (literal substring containment). -/
def pyContains (s pat : String) : Bool := containsAux pat.data s.data

/-- The normalized output unit built at lines 144-161: the display record.
The timestamp is kept as the parsed POSIX instant (timezone rendering is
abstracted away); `data` is the record's data bag in insertion order
(`changed_variables` first, then `result`), `error` is present exactly when
the event carried a truthy `error`. -/
structure DisplayRecord where
  timestamp : ℚ
  «alias» : PyVal
  path : String
  data : List (String × PyVal)
  error : Option PyVal
deriving Repr

/-- One element of the normalizer's output sequence: a synthetic iteration
marker string (line 141) or a display record (line 163). -/
inductive Entry where
  | marker : String → Entry
  | record : DisplayRecord → Entry
deriving Repr

/-- `datetime.fromisoformat(x).timestamp()`: in this embedding timestamp
values are stored pre-parsed as rationals, so the parse succeeds exactly on
numbers and raises otherwise. -/
def fromIso : PyVal → Except String ℚ
  | .num q => .ok q
  | _ => .error "ValueError: fromisoformat"

/-- Lines 100-103: normalize a trace-table value to a list of events
(wrap a non-list into a singleton). -/
def asEvents (v : PyVal) : List PyVal :=
  match v with
  | .arr l => l.toList
  | x => [x]

/-- Lines 105-106: keep only events that are dicts carrying a `path` key. -/
def keepEvent : PyVal → Bool
  | .obj kvs => dictHasKey kvs "path"
  | _ => false

/-- Lines 98-107: flatten the trace event table into one event list, in
table entry order and, within a list-valued entry, list order. -/
def flattenEvents : List (String × PyVal) → List PyVal
  | [] => []
  | (_, v) :: rest => (asEvents v).filter keepEvent ++ flattenEvents rest

/-- The sort key of line 110 for one event:
`datetime.fromisoformat(ev.get('timestamp')).timestamp() if 'timestamp' in
ev else 0`. -/
def sortKeyE : PyVal → Except String ℚ
  | .obj kvs =>
    match dictGet kvs "timestamp" with
    | some tv => fromIso tv
    | none => .ok 0
  | _ => .error "AttributeError: get"

/-- Pair every event with its sort key (the decoration step of line 110's
`sort(key=...)`; CPython computes all keys, in list order, before
comparing). -/
def keyEvents : List PyVal → Except String (List (ℚ × PyVal))
  | [] => .ok []
  | ev :: rest =>
    match sortKeyE ev with
    | .error e => .error e
    | .ok k =>
      match keyEvents rest with
      | .error e => .error e
      | .ok krest => .ok ((k, ev) :: krest)

/-- The sort of line 110.  Python's `list.sort` is guaranteed stable, and a
stable by-key sort of a given list is unique, so any stable sort embeds it
exactly; insertion sort inserting before the first strictly greater key is
stable. -/
def sortEvents (l : List (ℚ × PyVal)) : List (ℚ × PyVal) :=
  List.insertionSort (fun a b => a.1 ≤ b.1) l

/-- The six plural/singular path variations of lines 123-130, in source
order.  `str.replace` replaces every occurrence. -/
def variations (path : String) : List String :=
  [pyReplace path "action/" "actions/",
   pyReplace path "actions/" "action/",
   pyReplace path "condition/" "conditions/",
   pyReplace path "conditions/" "condition/",
   pyReplace path "trigger/" "triggers/",
   pyReplace path "triggers/" "trigger/"]

/-- The loop of lines 131-134: the mapping's value for the first variation
present in the mapping (present, not necessarily truthy — the `break` fires
on membership). -/
def firstVar : List String → Mapping → Option PyVal
  | [], _ => none
  | v :: rest, m =>
    match mapGet m v with
    | some x => some x
    | none => firstVar rest m

/-- Alias resolution for one event path (lines 119-136): direct lookup; if
the result is falsy, try the six variations and take the first present;
if still falsy, fall back to the literal path. -/
def resolveAlias (m : Mapping) (path : String) : PyVal :=
  let a0 := mapGet m path
  let a1 :=
    if optTruthy a0 then a0
    else
      match firstVar (variations path) m with
      | some v => some v
      | none => a0
  match a1 with
  | some v => if pyTruthy v then v else .str path
  | none => .str path

/-- Lines 144-161: assemble the display record for one event — resolved
alias, original path, data bag holding `changed_variables` verbatim when
present and `result` when truthy (in that insertion order), and the `error`
field exactly when the event carries a truthy error. -/
def buildRecord (m : Mapping) (kvs : PyObj) (ts : ℚ) (path : String) :
    DisplayRecord :=
  let result := (dictGet kvs "result").getD (.obj .nil)
  let dataCV :=
    match dictGet kvs "changed_variables" with
    | some cv => [("changed_variables", cv)]
    | none => ([] : List (String × PyVal))
  let dataR := if pyTruthy result then [("result", result)] else []
  let errF :=
    match dictGet kvs "error" with
    | some e => if pyTruthy e then some e else none
    | none => none
  ⟨ts, resolveAlias m path, path, dataCV ++ dataR, errF⟩

/-- The body of the event loop (lines 113-163) for one event: parse the
timestamp (line 114 subscripts `ev['timestamp']`, so a missing timestamp
raises `KeyError` here even though the sort tolerated it), emit an
iteration marker when the path contains `repeat` (incrementing the counter
first, line 140), and build the display record.  Returns the emitted
entries, the updated iteration counter, and the alias mapping (read but
never written). -/
def processEvent (m : Mapping) (ev : PyVal) (iter : Nat) :
    Except String (List Entry × Nat × Mapping) :=
  match ev with
  | .obj kvs =>
    match dictGet kvs "timestamp" with
    | none => .error "KeyError: timestamp"
    | some tv =>
      match fromIso tv with
      | .error e => .error e
      | .ok ts =>
        match dictGet kvs "path" with
        | none => .error "KeyError: path"
        | some pv =>
          match pv with
          | .str path =>
            let pre :=
              if pyContains path "repeat" then
                ([Entry.marker ("\n[ITERATION " ++ toString (iter+1) ++ "]")],
                 iter+1)
              else ([], iter)
            .ok (pre.1 ++ [Entry.record (buildRecord m kvs ts path)], pre.2, m)
          | _ => .error "AttributeError: path is not a string"
  | _ => .error "AttributeError: event is not a dict"

/-- The event loop of lines 113-163 over the sorted event list, threading
the iteration counter and the alias mapping. -/
def processEvents : Mapping → List PyVal → Nat → Except String (List Entry × Mapping)
  | m, [], _ => .ok ([], m)
  | m, ev :: rest, iter =>
    match processEvent m ev iter with
    | .error e => .error e
    | .ok (es, iter', m') =>
      match processEvents m' rest iter' with
      | .error e => .error e
      | .ok (esRest, m'') => .ok (es ++ esRest, m'')

/-- Python `v[k]` subscription: `KeyError` when the key is absent,
`TypeError` when the value is not a dict. -/
def pyGetItem (v : PyVal) (k : String) : Except String PyVal :=
  match v with
  | .obj kvs =>
    match dictGet kvs k with
    | some x => .ok x
    | none => .error ("KeyError: " ++ k)
  | _ => .error "TypeError: not subscriptable"

/-- `process_trace` (lines 89-170) on the parsed trace document: unwrap
`trace_data['trace']['trace']`, flatten its values to the event list, sort
by timestamp, and run the event loop.  Returns the output sequence together
with the final state of the alias mapping (which the loop only reads). -/
def processTrace (m : Mapping) (traceData : PyVal) :
    Except String (List Entry × Mapping) :=
  match pyGetItem traceData "trace" with
  | .error e => .error e
  | .ok t1 =>
    match pyGetItem t1 "trace" with
    | .error e => .error e
    | .ok t2 =>
      match t2 with
      | .obj table =>
        match keyEvents (flattenEvents table.toList) with
        | .error e => .error e
        | .ok keyed => processEvents m ((sortEvents keyed).map Prod.snd) 0
      | _ => .error "AttributeError: values"

/-- `format_output` for one entry (lines 175-192): a marker string is passed
through unchanged; a record renders as `timestamp | alias | path` with one
indented line per data-bag entry and an indented `[ERROR]` line when an
error is present.  (`strftime`/`json.dumps` rendering is abstracted by
`toString` / `pyStr`; no claim inspects those renderings.) -/
def formatEntry : Entry → String
  | .marker s => s
  | .record r =>
    let line := toString r.timestamp ++ " | " ++ pyStr r.«alias» ++ " | " ++ r.path
    let details := r.data.map (fun kv => kv.1 ++ ": " ++ pyStr kv.2)
    let line2 :=
      if details.isEmpty then line
      else line ++ "\n  " ++ String.intercalate "\n  " details
    match r.error with
    | some e => line2 ++ "\n  [ERROR] " ++ pyStr e
    | none => line2

/-- `format_output` (lines 172-193) over the whole output sequence. -/
def formatOutput : List Entry → List String
  | [] => []
  | e :: rest => formatEntry e :: formatOutput rest

/-- Lines 164-169: when an output destination is configured, the formatted
text is written in append mode (`open(output_file, 'a')`), so the file's
previous contents stay in place and `"\n".join(formatted_output)` is added
after them.  The file is modelled as its current string contents. -/
def writeRun (fileContents : String) (m : Mapping) (traceData : PyVal) :
    Except String String :=
  match processTrace m traceData with
  | .error e => .error e
  | .ok (out, _) => .ok (fileContents ++ String.intercalate "\n" (formatOutput out))

/-- Python `v[0]` on a value, as used by the friendly-name lookup: the first
element of a list, nothing otherwise (subscripting a dict by `0` or a
non-subscriptable value raises, which the enclosing `try` turns into
`None`). -/
def pyIndex0 : PyVal → Option PyVal
  | .arr (.cons x _) => some x
  | _ => none

/-- Python `v[k]` where any failure is about to be swallowed by a `try`:
`none` when `v` is not a dict or lacks the key. -/
def pyGetKeyOpt (v : PyVal) (k : String) : Option PyVal :=
  match v with
  | .obj kvs => dictGet kvs k
  | _ => none

/-- The best-effort friendly-name lookup of lines 224-229:
`trace_data['trace']['trace']['trigger/0'][0]['changed_variables']['this']['attributes']['friendly_name']`
inside `try: ... except Exception: pass`, so any failure (missing key, wrong
shape) yields `None`. -/
def friendlyName (traceData : PyVal) : Option PyVal :=
  (pyGetKeyOpt traceData "trace").bind fun a =>
  (pyGetKeyOpt a "trace").bind fun b =>
  (pyGetKeyOpt b "trigger/0").bind fun c =>
  (pyIndex0 c).bind fun d =>
  (pyGetKeyOpt d "changed_variables").bind fun e =>
  (pyGetKeyOpt e "this").bind fun f =>
  (pyGetKeyOpt f "attributes").bind fun g =>
  pyGetKeyOpt g "friendly_name"

/-- The alert condition of line 232:
`not friendly_name or not main_alias or friendly_name != main_alias`
(`!=` between two `None`s is false, between `None` and a value true,
between values structural). -/
def alertEmitted (fn ma : Option PyVal) : Bool :=
  !optTruthy fn || !optTruthy ma ||
    !(match fn, ma with
      | some a, some b => pyEq a b
      | none, none => true
      | _, _ => false)

/-- The six variations under the specification's "replace of the first
matching literal substring" reading (first occurrence only): the
specification-side counterpart of `variations`, for comparison. -/
def variationsSpec (path : String) : List String :=
  [replaceFirstStr path "action/" "actions/",
   replaceFirstStr path "actions/" "action/",
   replaceFirstStr path "condition/" "conditions/",
   replaceFirstStr path "conditions/" "condition/",
   replaceFirstStr path "trigger/" "triggers/",
   replaceFirstStr path "triggers/" "trigger/"]

/-- Alias resolution as the specification's words for C4 describe it: the
mapping's value at the path if present, else the value of the first
first-occurrence-substituted variant present in the mapping, else the
literal path.  To be compared with `resolveAlias`. -/
def resolveAliasSpec (m : Mapping) (path : String) : PyVal :=
  match mapGet m path with
  | some v => v
  | none =>
    match firstVar (variationsSpec path) m with
    | some v => v
    | none => .str path

mutual
/-- No dict anywhere inside the value carries an `alias` key (the premise of
the identity-labeling claim). -/
def noAliasV : PyVal → Bool
  | .arr l => noAliasA l
  | .obj kvs => noAliasO kvs
  | _ => true
/-- `noAliasV` over the elements of a list. -/
def noAliasA : PyArr → Bool
  | .nil => true
  | .cons v tl => noAliasV v && noAliasA tl
/-- No `alias` key at this dict nor anywhere below it. -/
def noAliasO : PyObj → Bool
  | .nil => true
  | .cons k v tl => (k != "alias") && noAliasV v && noAliasO tl
end

/-- Every entry of the mapping labels its path with the path itself. -/
def InvMap (m : Mapping) : Prop := ∀ p lab, (p, lab) ∈ m → lab = PyVal.str p

/-- The display records of an output sequence, in order (markers skipped). -/
def entryRecords : List Entry → List DisplayRecord
  | [] => []
  | .marker _ :: rest => entryRecords rest
  | .record r :: rest => r :: entryRecords rest

/-- The `path` string of an event record, when it is a dict whose `path` key
holds a string (exactly the events the record-building loop accepts). -/
def pathOf : PyVal → Option String
  | .obj kvs =>
    match dictGet kvs "path" with
    | some (.str s) => some s
    | _ => none
  | _ => none

theorem invMap_mapSet : ∀ (m : Mapping) (path : String),
    InvMap m → InvMap (mapSet m path (.str path))
  | [], path, _ => by
    intro p lab hmem
    simp [mapSet] at hmem
    simp [hmem.2, hmem.1]
  | (k, v) :: rest, path, hm => by
    intro p lab hmem
    by_cases h : k = path
    · simp [mapSet, h] at hmem
      rcases hmem with ⟨h1, h2⟩ | h2
      · simp [h2, h1]
      · exact hm p lab (List.mem_cons_of_mem _ h2)
    · simp [mapSet, h] at hmem
      rcases hmem with ⟨h1, h2⟩ | h2
      · exact hm p lab (by simp [h1, h2])
      · exact invMap_mapSet rest path
          (fun p' lab' hmem' => hm p' lab' (List.mem_cons_of_mem _ hmem')) p lab h2

theorem noAliasO_dictGet : ∀ (kvs : PyObj), noAliasO kvs = true →
    dictGet kvs "alias" = none
  | .nil, _ => rfl
  | .cons k v tl, h => by
    simp only [noAliasO, Bool.and_eq_true, bne_iff_ne, ne_eq] at h
    simp [dictGet, h.1.1]
    exact noAliasO_dictGet tl h.2

mutual
theorem mapSteps_inv : ∀ (base : String) (v : PyVal) (m : Mapping),
    noAliasV v = true → InvMap m → InvMap (mapSteps base v m none)
  | base, .arr l, m, hv, hm => by
    have := mapElems_inv base 0 l m (by simpa [noAliasV] using hv) hm
    simpa [mapSteps] using this
  | base, .obj kvs, m, hv, hm => by
    have hget := noAliasO_dictGet kvs (by simpa [noAliasV] using hv)
    have hm1 : InvMap (if base != "" then recordDerived m base none else m) := by
      by_cases hb : base = ""
      · simpa [hb] using hm
      · simpa [hb, recordDerived] using invMap_mapSet m base hm
    have := mapFields_inv base kvs _ (by simpa [noAliasV] using hv) hm1
    simpa [mapSteps, hget] using this
  | base, .null, m, hv, hm => by simpa [mapSteps] using hm
  | base, .boolean b, m, hv, hm => by simpa [mapSteps] using hm
  | base, .num q, m, hv, hm => by simpa [mapSteps] using hm
  | base, .str s, m, hv, hm => by simpa [mapSteps] using hm
theorem mapElems_inv : ∀ (base : String) (idx : Nat) (l : PyArr) (m : Mapping),
    noAliasA l = true → InvMap m → InvMap (mapElems base idx l m none)
  | _, _, .nil, m, _, hm => by simpa [mapElems] using hm
  | base, idx, .cons (.obj kvs) tl, m, h, hm => by
    simp [noAliasA, noAliasV] at h
    have hget := noAliasO_dictGet kvs h.1
    have hpath : InvMap (recordDerived m
        (if base != "" then base ++ "/" ++ toString idx else "sequence/" ++ toString idx)
        none) := by simpa [recordDerived] using invMap_mapSet m _ hm
    have hflds := mapFields_inv
      (if base != "" then base ++ "/" ++ toString idx else "sequence/" ++ toString idx)
      kvs _ h.1 hpath
    have := mapElems_inv base (idx+1) tl _ h.2 hflds
    simpa [mapElems, hget] using this
  | base, idx, .cons .null tl, m, h, hm => by
    simp [noAliasA, noAliasV] at h
    have hpath : InvMap (recordDerived m
        (if base != "" then base ++ "/" ++ toString idx else "sequence/" ++ toString idx)
        none) := by simpa [recordDerived] using invMap_mapSet m _ hm
    have := mapElems_inv base (idx+1) tl _ h hpath
    simpa [mapElems] using this
  | base, idx, .cons (.boolean b) tl, m, h, hm => by
    simp [noAliasA, noAliasV] at h
    have hpath : InvMap (recordDerived m
        (if base != "" then base ++ "/" ++ toString idx else "sequence/" ++ toString idx)
        none) := by simpa [recordDerived] using invMap_mapSet m _ hm
    have := mapElems_inv base (idx+1) tl _ h hpath
    simpa [mapElems] using this
  | base, idx, .cons (.num q) tl, m, h, hm => by
    simp [noAliasA, noAliasV] at h
    have hpath : InvMap (recordDerived m
        (if base != "" then base ++ "/" ++ toString idx else "sequence/" ++ toString idx)
        none) := by simpa [recordDerived] using invMap_mapSet m _ hm
    have := mapElems_inv base (idx+1) tl _ h hpath
    simpa [mapElems] using this
  | base, idx, .cons (.str s) tl, m, h, hm => by
    simp [noAliasA, noAliasV] at h
    have hpath : InvMap (recordDerived m
        (if base != "" then base ++ "/" ++ toString idx else "sequence/" ++ toString idx)
        none) := by simpa [recordDerived] using invMap_mapSet m _ hm
    have := mapElems_inv base (idx+1) tl _ h hpath
    simpa [mapElems] using this
  | base, idx, .cons (.arr l2) tl, m, h, hm => by
    simp [noAliasA, noAliasV] at h
    have hpath : InvMap (recordDerived m
        (if base != "" then base ++ "/" ++ toString idx else "sequence/" ++ toString idx)
        none) := by simpa [recordDerived] using invMap_mapSet m _ hm
    have := mapElems_inv base (idx+1) tl _ h.2 hpath
    simpa [mapElems] using this
theorem mapFields_inv : ∀ (base : String) (l : PyObj) (m : Mapping),
    noAliasO l = true → InvMap m → InvMap (mapFields base l m none)
  | _, .nil, m, _, hm => by simpa [mapFields] using hm
  | base, .cons k v tl, m, h, hm => by
    simp only [noAliasO, Bool.and_eq_true, bne_iff_ne, ne_eq] at h
    have h1 := mapSteps_inv (if base != "" then base ++ "/" ++ k else k) v m h.1.2 hm
    have := mapFields_inv base tl _ h.2 h1
    simpa [mapFields] using this
end

theorem noAliasO_toList : ∀ (kvs : PyObj), noAliasO kvs = true →
    ∀ kv ∈ kvs.toList, noAliasV kv.2 = true
  | .nil, _ => by simp [PyObj.toList]
  | .cons k v tl, h => by
    simp only [noAliasO, Bool.and_eq_true, bne_iff_ne, ne_eq] at h
    intro kv hkv
    simp [PyObj.toList] at hkv
    rcases hkv with h1 | h2
    · rw [h1]; exact h.1.2
    · exact noAliasO_toList tl h.2 kv h2

theorem loadLoop_inv : ∀ (l : List (String × PyVal)) (m : Mapping),
    (∀ kv ∈ l, noAliasV kv.2 = true) → InvMap m → InvMap (loadLoop l m)
  | [], m, _, hm => hm
  | (k, v) :: rest, m, h, hm => by
    have hv : noAliasV v = true := h (k, v) (by simp)
    have hm1 : InvMap (if k == "sequence" || isContainer v then mapSteps k v m none else m) := by
      by_cases hc : (k == "sequence" || isContainer v) = true
      · simpa [hc] using mapSteps_inv k v m hv hm
      · simpa [hc] using hm
    simpa [loadLoop] using
      loadLoop_inv rest _ (fun kv hkv => h kv (List.mem_cons_of_mem _ hkv)) hm1

/-- C6: a definition document with no `alias` field anywhere yields the
identity labeling — every entry of the Alias Mapper's output maps its path
to itself. -/
theorem claim_C6 (kvs : PyObj) (m : Mapping)
    (hna : noAliasV (PyVal.obj kvs) = true)
    (hload : loadAutomation (PyVal.obj kvs) = .ok m) :
    ∀ p lab, (p, lab) ∈ m → lab = PyVal.str p := by
  have hm : loadLoop kvs.toList [] = m := by
    simpa [loadAutomation] using hload
  rw [← hm]
  exact loadLoop_inv kvs.toList []
    (noAliasO_toList kvs (by simpa [noAliasV] using hna))
    (by intro p lab hmem; simp at hmem)

/-- Witness for C6 at a concrete alias-free document. -/
theorem claim_C6_witness :
    noAliasV (pobj [("action", parr [pobj [("delay", PyVal.str "5")]])]) = true ∧
    PyVal.str "action/0" = PyVal.str "action/0" := by
  constructor
  · rfl
  · exact claim_C6
      (PyObj.ofList [("action", parr [pobj [("delay", PyVal.str "5")]])])
      [("action/0", PyVal.str "action/0")]
      (by rfl) (by rfl) "action/0" (PyVal.str "action/0") (by simp)

/-- C5: for the fragment `{alias: "A", then: [{}, {alias: "B"}]}` at path
`action/0`, the Alias Mapper's output contains exactly
`action/0 ↦ "A"`, `action/0/then/0 ↦ "A//then/0"` (inherited alias plus
relative path with the ancestor's path-prefix stripped and the leading
separator removed) and `action/0/then/1 ↦ "B"`. -/
theorem claim_C5 :
    loadAutomation (pobj [("action", parr [pobj [("alias", PyVal.str "A"),
        ("then", parr [pobj [], pobj [("alias", PyVal.str "B")]])]])]) =
      .ok [("action/0", PyVal.str "A"),
           ("action/0/then/0", PyVal.str "A//then/0"),
           ("action/0/then/1", PyVal.str "B")] := by rfl

/-- C2, counterexample: the claim says a top-level value that is not a dict
or list "must not crash the mapper", but `load_automation` calls
`automation.items()` on it, which raises `AttributeError` for a top-level
string — and for a top-level list as well. -/
theorem claim_C2_cex :
    (loadAutomation (PyVal.str "not a mapping")).isOk = false ∧
    (loadAutomation (parr [pobj [("alias", PyVal.str "A")]])).isOk = false :=
  ⟨rfl, rfl⟩

/-- C2, amended: when the top-level value is a dict, the Alias Mapper never
raises, whatever malformed values the dict holds — non-container leaves and
unexpected nested values are simply not descended into and a mapping is
returned.  (A non-dict top level raises `AttributeError`, see the
counterexample.) -/
theorem claim_C2 : ∀ kvs : PyObj, (loadAutomation (PyVal.obj kvs)).isOk = true :=
  fun _ => rfl

/-- C1: evaluation of the Trace Normalizer around timestamps.  First
conjunct: three events with timestamps `T2, T0, T1` (here 7/4, 5/4, 3/2 —
sub-second ticks), arranged as a two-event list under one path key plus a
bare single event under another, come out ordered `T0, T1, T2`.  Second
conjunct: an event lacking a `timestamp` field receives sort key 0 and
sorts first.  Third conjunct — the divergence that makes this claim a code
bug: the same timestamp-less event then crashes the record-building loop,
because line 114 subscripts `ev['timestamp']`, so it never "appears first
in the output ... with no diagnostic" as claimed; `process_trace` raises
`KeyError` instead. -/
theorem claim_C1 :
    processTrace []
        (pobj [("trace", pobj [("trace", pobj [
          ("action/0", parr [
            pobj [("path", PyVal.str "action/0"), ("timestamp", PyVal.num (mkRat 7 4))],
            pobj [("path", PyVal.str "action/0"), ("timestamp", PyVal.num (mkRat 5 4))]]),
          ("action/1", pobj [("path", PyVal.str "action/1"),
            ("timestamp", PyVal.num (mkRat 3 2))])])])]) =
      .ok ([.record ⟨mkRat 5 4, PyVal.str "action/0", "action/0", [], none⟩,
            .record ⟨mkRat 3 2, PyVal.str "action/1", "action/1", [], none⟩,
            .record ⟨mkRat 7 4, PyVal.str "action/0", "action/0", [], none⟩], []) ∧
    (keyEvents (flattenEvents [
        ("action/0", pobj [("path", PyVal.str "action/0"), ("timestamp", PyVal.num 5)]),
        ("action/1", pobj [("path", PyVal.str "action/1")])])).map sortEvents =
      .ok [(0, pobj [("path", PyVal.str "action/1")]),
           (5, pobj [("path", PyVal.str "action/0"), ("timestamp", PyVal.num 5)])] ∧
    processTrace []
        (pobj [("trace", pobj [("trace", pobj [
          ("action/0", pobj [("path", PyVal.str "action/0")])])])]) =
      .error "KeyError: timestamp" :=
  ⟨rfl, rfl, rfl⟩

theorem mapGet_mem : ∀ (m : Mapping) (k : String) (v : PyVal),
    mapGet m k = some v → (k, v) ∈ m
  | [], k, v, h => by simp [mapGet] at h
  | (k', v') :: rest, k, v, h => by
    by_cases he : k' = k
    · simp [mapGet, he] at h
      simp [he, h]
    · simp [mapGet, he] at h
      exact List.mem_cons_of_mem _ (mapGet_mem rest k v h)

theorem firstVar_mem : ∀ (vars : List String) (m : Mapping) (v : PyVal),
    firstVar vars m = some v → ∃ k, (k, v) ∈ m
  | [], m, v, h => by simp [firstVar] at h
  | s :: rest, m, v, h => by
    simp only [firstVar] at h
    cases hg : mapGet m s with
    | some x =>
      rw [hg, Option.some.injEq] at h
      subst h
      exact ⟨s, mapGet_mem m s x hg⟩
    | none =>
      rw [hg] at h
      exact firstVar_mem rest m v h

/-- C4, amended: for a path absent from the mapping (over a mapping of
truthy labels, as the Alias Mapper produces), resolution returns the
mapping's value for the first of the six plural/singular variations present
in the mapping, in the fixed source order — each variation obtained by
replacing EVERY occurrence of the literal substring (Python `str.replace`),
not only the first — and falls back to the literal path when none is
present. -/
theorem claim_C4 (m : Mapping) (path : String)
    (habs : mapGet m path = none)
    (htr : ∀ p lab, (p, lab) ∈ m → pyTruthy lab = true) :
    resolveAlias m path =
      match firstVar (variations path) m with
      | some v => v
      | none => PyVal.str path := by
  simp only [resolveAlias, habs, optTruthy, Bool.false_eq_true, if_false]
  cases hf : firstVar (variations path) m with
  | some v =>
    obtain ⟨k, hk⟩ := firstVar_mem _ m v hf
    simp [htr k v hk]
  | none => simp

/-- C4, counterexample to the claim as stated: with the mapping
`{"actions/0/action/1": "X"}` and the path `action/0/action/1` (two
occurrences of the segment), a first-occurrence substitution would produce
the variant `actions/0/action/1`, which is in the mapping, so the claim's
reading resolves to `"X"`; the code replaces every occurrence, producing
`actions/0/actions/1`, finds nothing, and falls back to the literal path. -/
theorem claim_C4_cex :
    resolveAlias [("actions/0/action/1", PyVal.str "X")] "action/0/action/1" =
      PyVal.str "action/0/action/1" ∧
    resolveAliasSpec [("actions/0/action/1", PyVal.str "X")] "action/0/action/1" =
      PyVal.str "X" ∧
    ("action/0/action/1" : String) ≠ "X" :=
  ⟨rfl, rfl, by decide⟩

/-- Witness for C4 at the specification's own plural/singular example. -/
theorem claim_C4_witness :
    resolveAlias [("actions/0", PyVal.str "Turn on light")] "action/0" =
      PyVal.str "Turn on light" :=
  (claim_C4 [("actions/0", PyVal.str "Turn on light")] "action/0" rfl
    (by intro p lab h; simp at h; rw [h.2]; rfl)).trans (by rfl)

/-- C9: whenever the best-effort friendly-name lookup into the trace's
first triggering event fails for any reason (missing keys, wrong shape),
`friendly_name` stays `None`, and the advisory alert condition is
necessarily true — the alert is emitted, never suppressed, whatever the
main alias is. -/
theorem claim_C9 (t : PyVal) (ma : Option PyVal)
    (h : friendlyName t = none) :
    alertEmitted (friendlyName t) ma = true := by
  rw [h]; rfl

/-- Witness for C9 at a trace whose event table has no `trigger/0` entry. -/
theorem claim_C9_witness :
    friendlyName (pobj [("trace", pobj [("trace", pobj [])])]) = none ∧
    alertEmitted (friendlyName (pobj [("trace", pobj [("trace", pobj [])])]))
      (some (PyVal.str "My Automation")) = true :=
  ⟨rfl, claim_C9 _ _ rfl⟩

/-- C3, amended: for every event (in timestamp order) whose path contains
the literal substring `repeat`, the normalizer increments the monotonic
iteration counter and emits, immediately before the event's display record,
a synthetic marker that is the string `"\n[ITERATION {n}]"` — a NEWLINE
followed by the bracketed text, not the bare `"[ITERATION {n}]"` of the
claim — for the new counter value `n`; no marker precedes a
non-repeat-path event, and the formatter passes marker strings through
unchanged.  (The counter starts at 0: `processTrace` runs the loop with
`iter = 0`, so the first marker carries 1.) -/
theorem claim_C3 (m : Mapping) (kvs : PyObj) (iter : Nat) (ts : ℚ) (path : String)
    (hts : dictGet kvs "timestamp" = some (PyVal.num ts))
    (hp : dictGet kvs "path" = some (PyVal.str path)) :
    (pyContains path "repeat" = true →
      processEvent m (PyVal.obj kvs) iter =
        .ok ([Entry.marker ("\n[ITERATION " ++ toString (iter+1) ++ "]"),
              Entry.record (buildRecord m kvs ts path)], iter+1, m)) ∧
    (pyContains path "repeat" = false →
      processEvent m (PyVal.obj kvs) iter =
        .ok ([Entry.record (buildRecord m kvs ts path)], iter, m)) ∧
    (∀ s rest, formatOutput (Entry.marker s :: rest) = s :: formatOutput rest) := by
  refine ⟨?_, ?_, fun s rest => rfl⟩
  · intro hrep
    simp [processEvent, hts, hp, fromIso, hrep]
  · intro hrep
    simp [processEvent, hts, hp, fromIso, hrep]

/-- C3, counterexample to the claim as stated: at a concrete
single-repeat-event trace the emitted marker record is the string
`"\n[ITERATION 1]"` (leading newline included, from the f-string at line
141), which is not the claimed exact string `"[ITERATION 1]"`. -/
theorem claim_C3_cex :
    processTrace []
        (pobj [("trace", pobj [("trace", pobj [
          ("repeat/0", pobj [("path", PyVal.str "repeat/0"),
                             ("timestamp", PyVal.num 1)])])])]) =
      .ok ([.marker "\n[ITERATION 1]",
            .record ⟨1, PyVal.str "repeat/0", "repeat/0", [], none⟩], []) ∧
    "\n[ITERATION 1]" ≠ "[ITERATION 1]" :=
  ⟨rfl, by decide⟩

/-- Witness for C3 at a concrete repeat-path event. -/
theorem claim_C3_witness :
    pyContains "repeat/0" "repeat" = true ∧
    processEvent [] (pobj [("path", PyVal.str "repeat/0"),
        ("timestamp", PyVal.num 1)]) 0 =
      .ok ([.marker "\n[ITERATION 1]",
            .record (buildRecord []
              (PyObj.ofList [("path", PyVal.str "repeat/0"),
                             ("timestamp", PyVal.num 1)]) 1 "repeat/0")], 1, []) :=
  ⟨by rfl,
   (claim_C3 [] (PyObj.ofList [("path", PyVal.str "repeat/0"),
      ("timestamp", PyVal.num 1)]) 0 1 "repeat/0" (by rfl) (by rfl)).1 (by rfl)⟩

theorem entryRecords_append : ∀ (a b : List Entry),
    entryRecords (a ++ b) = entryRecords a ++ entryRecords b
  | [], _ => rfl
  | .marker s :: rest, b => by simp [entryRecords, entryRecords_append rest b]
  | .record r :: rest, b => by simp [entryRecords, entryRecords_append rest b]

theorem processEvent_ok (m : Mapping) (ev : PyVal) (iter : Nat)
    (es : List Entry) (iter2 : Nat) (m2 : Mapping)
    (h : processEvent m ev iter = .ok (es, iter2, m2)) :
    m2 = m ∧ ∃ r : DisplayRecord, entryRecords es = [r] ∧ pathOf ev = some r.path := by
  cases ev with
  | obj kvs =>
    cases hts : dictGet kvs "timestamp" with
    | none => simp [processEvent, hts] at h
    | some tv =>
      cases tv with
      | num ts =>
        cases hp : dictGet kvs "path" with
        | none => simp [processEvent, hts, hp, fromIso] at h
        | some pv =>
          cases pv with
          | str path =>
            by_cases hrep : pyContains path "repeat" = true
            · simp only [processEvent, hts, hp, fromIso, hrep, if_true,
                Except.ok.injEq, Prod.mk.injEq] at h
              obtain ⟨hes, _, hm⟩ := h
              refine ⟨hm.symm, buildRecord m kvs ts path, ?_, ?_⟩
              · rw [← hes]; rfl
              · simp [pathOf, hp, buildRecord]
            · simp only [processEvent, hts, hp, fromIso, hrep, if_false,
                Bool.false_eq_true, Except.ok.injEq, Prod.mk.injEq] at h
              obtain ⟨hes, _, hm⟩ := h
              refine ⟨hm.symm, buildRecord m kvs ts path, ?_, ?_⟩
              · rw [← hes]; rfl
              · simp [pathOf, hp, buildRecord]
          | null => simp [processEvent, hts, hp, fromIso] at h
          | boolean b => simp [processEvent, hts, hp, fromIso] at h
          | num q => simp [processEvent, hts, hp, fromIso] at h
          | arr l => simp [processEvent, hts, hp, fromIso] at h
          | obj o => simp [processEvent, hts, hp, fromIso] at h
      | null => simp [processEvent, hts, fromIso] at h
      | boolean b => simp [processEvent, hts, fromIso] at h
      | str s => simp [processEvent, hts, fromIso] at h
      | arr l => simp [processEvent, hts, fromIso] at h
      | obj o => simp [processEvent, hts, fromIso] at h
  | null => simp [processEvent] at h
  | boolean b => simp [processEvent] at h
  | num q => simp [processEvent] at h
  | str s => simp [processEvent] at h
  | arr l => simp [processEvent] at h

theorem processEvents_ok : ∀ (m : Mapping) (l : List PyVal) (iter : Nat)
    (es : List Entry) (m2 : Mapping),
    processEvents m l iter = .ok (es, m2) →
    m2 = m ∧ (entryRecords es).map (fun r => some r.path) = l.map pathOf
  | m, [], _, es, m2, h => by
    simp only [processEvents, Except.ok.injEq, Prod.mk.injEq] at h
    obtain ⟨h1, h2⟩ := h
    subst h1; subst h2
    exact ⟨rfl, rfl⟩
  | m, ev :: rest, iter, es, m2, h => by
    simp only [processEvents] at h
    cases he : processEvent m ev iter with
    | error e => rw [he] at h; simp at h
    | ok t =>
      obtain ⟨es1, iter1, m1⟩ := t
      rw [he] at h
      dsimp only at h
      cases hr : processEvents m1 rest iter1 with
      | error e => rw [hr] at h; simp at h
      | ok t2 =>
        obtain ⟨es2, m3⟩ := t2
        rw [hr] at h
        simp only [Except.ok.injEq, Prod.mk.injEq] at h
        obtain ⟨hes, hm⟩ := h
        obtain ⟨hm1, r, hr1, hp1⟩ := processEvent_ok m ev iter es1 iter1 m1 he
        obtain ⟨hm2, hmap⟩ := processEvents_ok m1 rest iter1 es2 m3 hr
        subst hm; subst hm1; subst hm2
        refine ⟨rfl, ?_⟩
        rw [← hes, entryRecords_append, hr1]
        simp [hp1, hmap]

theorem processTrace_mapping (m : Mapping) (t : PyVal) (o : List Entry)
    (m1 : Mapping) (h : processTrace m t = .ok (o, m1)) : m1 = m := by
  unfold processTrace at h
  cases h1 : pyGetItem t "trace" with
  | error e => rw [h1] at h; simp at h
  | ok a =>
    rw [h1] at h
    dsimp only at h
    cases h2 : pyGetItem a "trace" with
    | error e => rw [h2] at h; simp at h
    | ok b =>
      rw [h2] at h
      dsimp only at h
      cases b with
      | obj table =>
        dsimp only at h
        cases h3 : keyEvents (flattenEvents table.toList) with
        | error e => rw [h3] at h; simp at h
        | ok keyed =>
          rw [h3] at h
          dsimp only at h
          exact (processEvents_ok m _ 0 o m1 h).1
      | null => simp at h
      | boolean b2 => simp at h
      | num q => simp at h
      | str s => simp at h
      | arr l => simp at h

/-- C7: the Trace Normalizer never writes to the alias mapping — the event
loop returns it unchanged — and therefore the same mapping can be shared
across successive trace-normalization calls with identical results. -/
theorem claim_C7 (m : Mapping) :
    (∀ (l : List PyVal) (iter : Nat) (es : List Entry) (m2 : Mapping),
        processEvents m l iter = .ok (es, m2) → m2 = m) ∧
    (∀ (t1 t2 : PyVal) (o1 : List Entry) (m1 : Mapping),
        processTrace m t1 = .ok (o1, m1) → processTrace m1 t2 = processTrace m t2) := by
  constructor
  · intro l iter es m2 h
    exact (processEvents_ok m l iter es m2 h).1
  · intro t1 t2 o1 m1 h
    rw [processTrace_mapping m t1 o1 m1 h]

/-- Witness for C7: the mapping coming out of a one-event run is the one
that went in. -/
theorem claim_C7_witness :
    ([("a", PyVal.str "A")] : Mapping) = [("a", PyVal.str "A")] :=
  (claim_C7 [("a", PyVal.str "A")]).1
    [pobj [("path", PyVal.str "p"), ("timestamp", PyVal.num 2)]] 0
    [.record (buildRecord [("a", PyVal.str "A")]
      (PyObj.ofList [("path", PyVal.str "p"), ("timestamp", PyVal.num 2)]) 2 "p")]
    [("a", PyVal.str "A")] (by rfl)

/-- C8: when an output destination is configured, a run appends its
formatted text after the file's existing contents; two successive runs
against the same destination leave the first run's content unchanged and
both texts present, in run order. -/
theorem claim_C8 (file : String) (m : Mapping) (t1 t2 : PyVal)
    (o1 o2 : List Entry) (m1 m2 : Mapping)
    (h1 : processTrace m t1 = .ok (o1, m1))
    (h2 : processTrace m t2 = .ok (o2, m2)) :
    writeRun file m t1 = .ok (file ++ String.intercalate "\n" (formatOutput o1)) ∧
    writeRun (file ++ String.intercalate "\n" (formatOutput o1)) m t2 =
      .ok (file ++ String.intercalate "\n" (formatOutput o1) ++
           String.intercalate "\n" (formatOutput o2)) := by
  constructor
  · simp [writeRun, h1]
  · simp [writeRun, h2]

/-- Witness for C8: two runs over a one-event trace against a file holding
`LOG`. -/
theorem claim_C8_witness :
    writeRun "LOG" []
        (pobj [("trace", pobj [("trace", pobj [
          ("p", pobj [("path", PyVal.str "p"), ("timestamp", PyVal.num 2)])])])]) =
      .ok ("LOG" ++ String.intercalate "\n"
        (formatOutput [.record ⟨2, PyVal.str "p", "p", [], none⟩])) ∧
    writeRun ("LOG" ++ String.intercalate "\n"
        (formatOutput [.record ⟨2, PyVal.str "p", "p", [], none⟩])) []
        (pobj [("trace", pobj [("trace", pobj [
          ("p", pobj [("path", PyVal.str "p"), ("timestamp", PyVal.num 2)])])])]) =
      .ok ("LOG" ++ String.intercalate "\n"
          (formatOutput [.record ⟨2, PyVal.str "p", "p", [], none⟩]) ++
        String.intercalate "\n"
          (formatOutput [.record ⟨2, PyVal.str "p", "p", [], none⟩])) :=
  claim_C8 "LOG" [] _ _
    [.record ⟨2, PyVal.str "p", "p", [], none⟩]
    [.record ⟨2, PyVal.str "p", "p", [], none⟩] [] [] (by rfl) (by rfl)

theorem filter_orderedInsert_ne (x : ℚ × PyVal) (k : ℚ) (hx : ¬ x.1 = k) :
    ∀ l : List (ℚ × PyVal),
      (List.orderedInsert (fun a b => a.1 ≤ b.1) x l).filter
          (fun e => decide (e.1 = k)) =
        l.filter (fun e => decide (e.1 = k))
  | [] => by simp [List.orderedInsert, hx]
  | y :: ys => by
    by_cases hle : x.1 ≤ y.1
    · simp [List.orderedInsert, hle, hx]
    · simp [List.orderedInsert, hle, List.filter_cons,
        filter_orderedInsert_ne x k hx ys]

theorem filter_orderedInsert_eq (x : ℚ × PyVal) :
    ∀ l : List (ℚ × PyVal),
      (List.orderedInsert (fun a b => a.1 ≤ b.1) x l).filter
          (fun e => decide (e.1 = x.1)) =
        x :: l.filter (fun e => decide (e.1 = x.1))
  | [] => by simp [List.orderedInsert]
  | y :: ys => by
    by_cases hle : x.1 ≤ y.1
    · simp [List.orderedInsert, hle]
    · have hy : ¬ y.1 = x.1 := fun he => hle (le_of_eq he.symm)
      simp [List.orderedInsert, hle, List.filter_cons, hy,
        filter_orderedInsert_eq x ys]

theorem filter_insertionSort :
    ∀ (k : ℚ) (l : List (ℚ × PyVal)),
      (List.insertionSort (fun a b => a.1 ≤ b.1) l).filter
          (fun e => decide (e.1 = k)) =
        l.filter (fun e => decide (e.1 = k))
  | _, [] => rfl
  | k, a :: l => by
    by_cases ha : a.1 = k
    · subst ha
      rw [List.insertionSort,
        filter_orderedInsert_eq a (List.insertionSort _ l),
        filter_insertionSort a.1 l]
      simp [List.filter_cons]
    · rw [List.insertionSort,
        filter_orderedInsert_ne a k ha (List.insertionSort _ l),
        filter_insertionSort k l]
      simp [List.filter_cons, ha]

theorem flattenEvents_flatten : ∀ table : List (String × PyVal),
    flattenEvents table =
      (table.map (fun kv => (asEvents kv.2).filter keepEvent)).flatten
  | [] => rfl
  | (s, v) :: rest => by
    simp [flattenEvents, flattenEvents_flatten rest]

/-- C10: the timestamp sort is stable.  First conjunct: for every sort key
value, the sorted event list restricted to that key equals the unsorted
(flatten-order) list restricted to that key — so any two events with equal
sort keys (equal timestamps, or both lacking one and sharing key 0) keep
their relative order.  Second conjunct: the flattened collection follows
the trace event table's entry order and, within a list-valued entry, the
list order.  Third conjunct: the record-building loop emits exactly one
display record per event, in list order, so the sorted order is the output
order. -/
theorem claim_C10 :
    (∀ (l : List (ℚ × PyVal)) (k : ℚ),
      (sortEvents l).filter (fun e => decide (e.1 = k)) =
        l.filter (fun e => decide (e.1 = k))) ∧
    (∀ table : List (String × PyVal),
      flattenEvents table =
        (table.map (fun kv => (asEvents kv.2).filter keepEvent)).flatten) ∧
    (∀ (m : Mapping) (l : List PyVal) (iter : Nat) (es : List Entry)
        (m2 : Mapping),
      processEvents m l iter = .ok (es, m2) →
      (entryRecords es).map (fun r => some r.path) = l.map pathOf) :=
  ⟨fun l k => filter_insertionSort k l,
   flattenEvents_flatten,
   fun m l iter es m2 h => (processEvents_ok m l iter es m2 h).2⟩

/-- Witness for C10's record-order conjunct at a concrete one-event run. -/
theorem claim_C10_witness :
    (entryRecords [Entry.record (buildRecord []
        (PyObj.ofList [("path", PyVal.str "p"), ("timestamp", PyVal.num 2)])
        2 "p")]).map (fun r => some r.path) =
      [pobj [("path", PyVal.str "p"), ("timestamp", PyVal.num 2)]].map pathOf :=
  claim_C10.2.2 []
    [pobj [("path", PyVal.str "p"), ("timestamp", PyVal.num 2)]] 0
    [Entry.record (buildRecord []
      (PyObj.ofList [("path", PyVal.str "p"), ("timestamp", PyVal.num 2)]) 2 "p")]
    [] (by rfl)
